import Mathlib

/-!
Verification of the xSlicerServer lifecycle and event-source management
(src/JupyterKernel/xSlicerServer.h).  The repository ships only the header;
the member functions `start_impl`, `stop_impl`, `setPollIntervalSec`,
`pollIntervalSec` and the timer/notifier wiring live in an implementation
file that is not part of the source tree, so the operational definitions
below are modelled from the specification (sections 3, 4.1, 4.2, 4.3, 5, 7).
Sockets are identified by natural-number descriptors; time and the poll
interval are rationals (seconds).
-/

namespace SlicerServer

/-- Error conditions of the server interface: invalid-state (start while
running), invalid-argument (non-positive poll interval), and
resource-registration-failure (the event loop refuses a notifier). -/
inductive Err where
  | invalidState
  | invalidArgument
  | registrationFailure
deriving DecidableEq

/-- Static configuration of one server: the transport sockets that must be
watched, the designated problem (stdin-like) socket that gets the poll
fallback instead of a notifier, and the host event loop's answer to each
registration request (used to model resource-registration failures). -/
structure Config where
  watched : List Nat
  problem : Nat
  regOk : Nat → Bool

/-- Modelled from the spec: the state of an `xSlicerServer` instance.  The
implementation file holding the data members' dynamics is not in src/; the
spec (section 3) says the server owns a list of notifier handles, one timer
handle, a poll interval in seconds, and a lifecycle state.  `queue` holds
the arrival times of not-yet-processed messages on the problem socket;
`handlerLog` records the times at which the poll fallback invoked the
protocol engine's handler, and `bridgeLog` records (socket, time) handler
invocations made by the notifier bridge. -/
structure SrvState where
  running : Bool
  notifiers : List Nat
  timerArmed : Bool
  intervalSec : ℚ
  nextTick : ℚ
  queue : List ℚ
  handlerLog : List ℚ
  bridgeLog : List (Nat × ℚ)
deriving DecidableEq

/-- A freshly constructed server: Stopped, no notifiers, timer unarmed,
poll interval at its construction default `d`. -/
def initState (d : ℚ) : SrvState :=
  { running := false
    notifiers := []
    timerArmed := false
    intervalSec := d
    nextTick := 0
    queue := []
    handlerLog := []
    bridgeLog := [] }

/-- Modelled from the spec: registration of notifiers, one socket at a time,
in list order.  Returns `Sum.inl regs` when every registration succeeded and
`Sum.inr regs` when a registration failed, where `regs` are the notifiers
registered before the failure. -/
def registerUpTo (regOk : Nat → Bool) : List Nat → List Nat ⊕ List Nat
  | [] => Sum.inl []
  | s :: rest =>
      if regOk s then
        match registerUpTo regOk rest with
        | Sum.inl regs => Sum.inl (s :: regs)
        | Sum.inr regs => Sum.inr (s :: regs)
      else Sum.inr []

/-- Modelled from the spec: teardown deregisters the notifier handles one at
a time, unconditionally, leaving no registered notifier. -/
def deregisterAll : List Nat → List Nat
  | [] => []
  | _ :: rest => deregisterAll rest

/-- Modelled from the spec: `start_impl` is declared at
src/JupyterKernel/xSlicerServer.h:34 but its implementation file is absent
from the tree.  Spec 4.1: valid only from Stopped (invalid-state otherwise);
registers one notifier per watched socket except the designated problem
socket, arms the poll-fallback timer at the configured interval for the
problem socket, and transitions to Running.  Spec 7: if the event loop
refuses a registration, the failure is propagated and the notifiers already
created by this attempt are rolled back, leaving the server Stopped. -/
def start_impl (cfg : Config) (t : ℚ) (st : SrvState) : SrvState × Option Err :=
  if st.running then (st, some Err.invalidState)
  else
    match registerUpTo cfg.regOk (cfg.watched.filter (fun s => s ≠ cfg.problem)) with
    | Sum.inl regs =>
        ({ st with
            running := true
            notifiers := regs
            timerArmed := true
            nextTick := t + st.intervalSec }, none)
    | Sum.inr regs =>
        ({ st with
            running := false
            notifiers := deregisterAll regs
            timerArmed := false }, some Err.registrationFailure)

/-- Modelled from the spec: `stop_impl` is declared at
src/JupyterKernel/xSlicerServer.h:35 but its implementation file is absent
from the tree.  Spec 4.1: valid from Running or Stopped, never an error;
deregisters and destroys every notifier handle, stops the timer, and
transitions to Stopped. -/
def stop_impl (st : SrvState) : SrvState :=
  { st with
      running := false
      notifiers := deregisterAll st.notifiers
      timerArmed := false }

/-- Modelled from the spec: `setPollIntervalSec` is declared at
src/JupyterKernel/xSlicerServer.h:29 but its implementation file is absent
from the tree.  Spec 4.1: a non-positive value is rejected with
invalid-argument and the previous interval is preserved; otherwise the
interval is stored, and if the server is Running the fallback timer is
re-armed so that the next tick occurs one new interval after the call. -/
def setPollIntervalSec (t : ℚ) (v : ℚ) (st : SrvState) : SrvState × Option Err :=
  if v ≤ 0 then (st, some Err.invalidArgument)
  else if st.running then
    ({ st with intervalSec := v, nextTick := t + v }, none)
  else
    ({ st with intervalSec := v }, none)

/-- Modelled from the spec: `pollIntervalSec` is declared at
src/JupyterKernel/xSlicerServer.h:30 but its implementation file is absent
from the tree.  Spec 4.1: a pure accessor of the poll-interval attribute. -/
def pollIntervalSec (st : SrvState) : ℚ :=
  st.intervalSec

/-- Modelled from the spec: a message arrives on the problem socket at time
`t`; it stays pending until a poll tick processes it. -/
def arrive (t : ℚ) (st : SrvState) : SrvState :=
  { st with queue := st.queue ++ [t] }

/-- Modelled from the spec (4.3): a poll-timer tick delivered at time `t`.
A tick fires only when the timer is armed and `t` is the scheduled tick (a
canceled or superseded tick never fires).  On firing it performs one
non-blocking pending-data check; if data is present it invokes the protocol
engine's handler once, which drains all currently available messages before
returning; the next tick is scheduled one interval later. -/
def tick (t : ℚ) (st : SrvState) : SrvState :=
  if st.timerArmed = true ∧ st.nextTick = t then
    if st.queue = [] then
      { st with nextTick := t + st.intervalSec }
    else
      { st with
          queue := []
          handlerLog := t :: st.handlerLog
          nextTick := t + st.intervalSec }
  else st

/-- Modelled from the spec (4.2): the host event loop reports readability of
socket `s` at time `t`; the bridge invokes the protocol engine's handler for
`s` iff a notifier is currently registered for `s`. -/
def notify (s : Nat) (t : ℚ) (st : SrvState) : SrvState :=
  if s ∈ st.notifiers then { st with bridgeLog := (s, t) :: st.bridgeLog }
  else st

/-- External events driving the server: lifecycle calls, interval changes,
message arrivals on the problem socket, timer ticks, and event-loop
readiness notifications. -/
inductive Ev where
  | start (t : ℚ)
  | stop (t : ℚ)
  | setInterval (t v : ℚ)
  | arrive (t : ℚ)
  | tick (t : ℚ)
  | notify (s : Nat) (t : ℚ)

/-- One step of the event-driven semantics (errors of the lifecycle calls
are dropped here; the per-operation functions expose them). -/
def step (cfg : Config) (st : SrvState) : Ev → SrvState
  | Ev.start t => (start_impl cfg t st).1
  | Ev.stop _ => stop_impl st
  | Ev.setInterval t v => (setPollIntervalSec t v st).1
  | Ev.arrive t => arrive t st
  | Ev.tick t => tick t st
  | Ev.notify s t => notify s t st

/-- Run a sequence of events from a state. -/
def run (cfg : Config) (st : SrvState) : List Ev → SrvState
  | [] => st
  | e :: evs => run cfg (step cfg st e) evs

/-- True iff the event is a `start` call. -/
def isStart : Ev → Bool
  | Ev.start _ => true
  | _ => false

/-- A concrete Running server state used by witnesses: two registered
notifiers, timer armed with interval 3 s, next tick scheduled at time 10,
one pending message that arrived at time 5/2. -/
def demoRunning : SrvState :=
  { running := true
    notifiers := [1, 2]
    timerArmed := true
    intervalSec := 3
    nextTick := 10
    queue := [5/2]
    handlerLog := []
    bridgeLog := [] }

/-- A concrete Running server state used by witnesses: timer armed with
interval 2 s, next tick scheduled at time 10, no pending message. -/
def demoArmed : SrvState :=
  { running := true
    notifiers := []
    timerArmed := true
    intervalSec := 2
    nextTick := 10
    queue := []
    handlerLog := []
    bridgeLog := [] }

/-! ### Helper lemmas -/

theorem deregisterAll_eq_nil (l : List Nat) : deregisterAll l = [] := by
  induction l with
  | nil => rfl
  | cons s rest ih => simpa [deregisterAll] using ih

theorem registerUpTo_inl {regOk : Nat → Bool} {l regs : List Nat}
    (h : registerUpTo regOk l = Sum.inl regs) : regs = l := by
  induction l generalizing regs with
  | nil => simpa [registerUpTo] using h.symm
  | cons s rest ih =>
      by_cases hs : regOk s = true
      · simp only [registerUpTo, hs, if_true] at h
        cases hr : registerUpTo regOk rest with
        | inl r => rw [hr] at h; cases h; rw [ih hr]
        | inr r => rw [hr] at h; cases h
      · rw [registerUpTo, if_neg hs] at h; cases h

theorem registerUpTo_fail (regOk : Nat → Bool) (pre post : List Nat) (s : Nat)
    (hpre : ∀ x ∈ pre, regOk x = true) (hs : regOk s = false) :
    registerUpTo regOk (pre ++ s :: post) = Sum.inr pre := by
  induction pre with
  | nil => simp [registerUpTo, hs]
  | cons a rest ih =>
      have ha : regOk a = true := hpre a (by simp)
      have hrest : ∀ x ∈ rest, regOk x = true := fun x hx => hpre x (by simp [hx])
      simp [registerUpTo, ha, ih hrest]

theorem setPollIntervalSec_notifiers (t v : ℚ) (st : SrvState) :
    (setPollIntervalSec t v st).1.notifiers = st.notifiers := by
  by_cases h : v ≤ 0
  · simp [setPollIntervalSec, h]
  · by_cases hr : st.running = true <;> simp [setPollIntervalSec, h, hr]

theorem tick_notifiers (t : ℚ) (st : SrvState) :
    (tick t st).notifiers = st.notifiers := by
  unfold tick
  by_cases h : st.timerArmed = true ∧ st.nextTick = t
  · by_cases hq : st.queue = [] <;> simp [h, hq]
  · simp [h]

theorem notify_notifiers (s : Nat) (t : ℚ) (st : SrvState) :
    (notify s t st).notifiers = st.notifiers := by
  unfold notify
  by_cases h : s ∈ st.notifiers <;> simp [h]

/-- On a state where every notifier set reachable so far is duplicate-free
and excludes the problem socket, every event preserves both properties. -/
theorem step_notifiers_inv (cfg : Config) (st : SrvState) (e : Ev)
    (hW : cfg.watched.Nodup)
    (hnd : st.notifiers.Nodup) (hpb : cfg.problem ∉ st.notifiers) :
    (step cfg st e).notifiers.Nodup ∧ cfg.problem ∉ (step cfg st e).notifiers := by
  cases e with
  | start t =>
      show (start_impl cfg t st).1.notifiers.Nodup
        ∧ cfg.problem ∉ (start_impl cfg t st).1.notifiers
      unfold start_impl
      by_cases hr : st.running = true
      · rw [if_pos hr]; exact ⟨hnd, hpb⟩
      · rw [if_neg hr]
        cases hreg : registerUpTo cfg.regOk
            (cfg.watched.filter (fun s => s ≠ cfg.problem)) with
        | inl regs =>
            have hregs := registerUpTo_inl hreg
            subst hregs
            refine ⟨hW.filter _, ?_⟩
            show cfg.problem ∉ cfg.watched.filter (fun s => s ≠ cfg.problem)
            simp [List.mem_filter]
        | inr regs =>
            show (deregisterAll regs).Nodup ∧ cfg.problem ∉ deregisterAll regs
            simp [deregisterAll_eq_nil]
  | stop t => simp [step, stop_impl, deregisterAll_eq_nil]
  | setInterval t v =>
      simpa [step, setPollIntervalSec_notifiers] using And.intro hnd hpb
  | arrive t => simpa [step, arrive] using And.intro hnd hpb
  | tick t => simpa [step, tick_notifiers] using And.intro hnd hpb
  | notify s t => simpa [step, notify_notifiers] using And.intro hnd hpb

theorem run_notifiers_inv (cfg : Config) (evs : List Ev) (st : SrvState)
    (hW : cfg.watched.Nodup)
    (hnd : st.notifiers.Nodup) (hpb : cfg.problem ∉ st.notifiers) :
    (run cfg st evs).notifiers.Nodup ∧ cfg.problem ∉ (run cfg st evs).notifiers := by
  induction evs generalizing st with
  | nil => exact ⟨hnd, hpb⟩
  | cons e rest ih =>
      have h := step_notifiers_inv cfg st e hW hnd hpb
      exact ih (step cfg st e) h.1 h.2

/-! ### Claim theorems -/

/-- A successful `start` happens only from Stopped and registers exactly the
watched sockets other than the problem socket, in order. -/
theorem start_impl_success (cfg : Config) (t : ℚ) (st : SrvState)
    (hok : (start_impl cfg t st).2 = none) :
    st.running = false
      ∧ (start_impl cfg t st).1.notifiers
          = cfg.watched.filter (fun s => s ≠ cfg.problem) := by
  unfold start_impl at hok ⊢
  by_cases hr : st.running = true
  · rw [if_pos hr] at hok; cases hok
  · rw [if_neg hr] at hok ⊢
    refine ⟨by simpa using hr, ?_⟩
    cases hreg : registerUpTo cfg.regOk
        (cfg.watched.filter (fun s => s ≠ cfg.problem)) with
    | inl regs => exact registerUpTo_inl hreg
    | inr regs => rw [hreg] at hok; cases hok

/-- Claim C1: after `start` returns successfully, every watched socket other
than the problem socket has exactly one registered notifier and the problem
socket has none; after `stop` the server holds zero notifiers; and along any
event sequence from a fresh server, no socket ever has two simultaneously
registered notifiers and the problem socket never has one. -/
theorem notifier_registration_inv (cfg : Config) (d t : ℚ) (st : SrvState)
    (s : Nat) (evs : List Ev)
    (hW : cfg.watched.Nodup)
    (hok : (start_impl cfg t st).2 = none)
    (hs : s ∈ cfg.watched) (hsp : s ≠ cfg.problem) :
    (start_impl cfg t st).1.notifiers.count s = 1
    ∧ cfg.problem ∉ (start_impl cfg t st).1.notifiers
    ∧ (stop_impl st).notifiers = []
    ∧ (run cfg (initState d) evs).notifiers.Nodup
    ∧ cfg.problem ∉ (run cfg (initState d) evs).notifiers := by
  obtain ⟨hr0, hnot⟩ := start_impl_success cfg t st hok
  have hinv := run_notifiers_inv cfg evs (initState d) hW
    (by simp [initState]) (by simp [initState])
  refine ⟨?_, ?_, ?_, hinv.1, hinv.2⟩
  · rw [hnot]
    exact List.count_eq_one_of_mem (hW.filter _)
      (List.mem_filter.mpr ⟨hs, by simp [hsp]⟩)
  · rw [hnot]
    simp [List.mem_filter]
  · simp [stop_impl, deregisterAll_eq_nil]

/-- Witness for C1: three watched sockets, socket 3 designated as the
problem socket, a start/stop/start event sequence. -/
theorem notifier_registration_inv_witness :
    (start_impl ⟨[1, 2, 3], 3, fun _ => true⟩ 0 (initState 1)).1.notifiers.count 1 = 1
    ∧ 3 ∉ (start_impl ⟨[1, 2, 3], 3, fun _ => true⟩ 0 (initState 1)).1.notifiers
    ∧ (stop_impl (initState 1)).notifiers = []
    ∧ (run ⟨[1, 2, 3], 3, fun _ => true⟩ (initState 1)
        [Ev.start 0, Ev.stop 2, Ev.start 3]).notifiers.Nodup
    ∧ 3 ∉ (run ⟨[1, 2, 3], 3, fun _ => true⟩ (initState 1)
        [Ev.start 0, Ev.stop 2, Ev.start 3]).notifiers :=
  notifier_registration_inv ⟨[1, 2, 3], 3, fun _ => true⟩ 1 0 (initState 1) 1
    [Ev.start 0, Ev.stop 2, Ev.start 3] (by decide) rfl (by decide) (by decide)

/-- Claim C4: if the event loop refuses registration for the k-th socket
during `start` (here: the watched non-problem sockets split as
`pre ++ s :: post` with every socket of `pre` accepted and `s` refused),
the error is propagated to the caller, the previously registered sources
`pre` are rolled back to none, and the server ends Stopped with the timer
unarmed. -/
theorem start_registration_failure (cfg : Config) (t : ℚ) (st : SrvState)
    (pre post : List Nat) (s : Nat)
    (hr : st.running = false)
    (hsocks : cfg.watched.filter (fun x => x ≠ cfg.problem) = pre ++ s :: post)
    (hpre : ∀ x ∈ pre, cfg.regOk x = true)
    (hs : cfg.regOk s = false) :
    (start_impl cfg t st).2 = some Err.registrationFailure
    ∧ (start_impl cfg t st).1.notifiers = deregisterAll pre
    ∧ (start_impl cfg t st).1.notifiers = []
    ∧ (start_impl cfg t st).1.running = false
    ∧ (start_impl cfg t st).1.timerArmed = false := by
  have hfail : registerUpTo cfg.regOk
      (cfg.watched.filter (fun x => x ≠ cfg.problem)) = Sum.inr pre := by
    rw [hsocks]; exact registerUpTo_fail cfg.regOk pre post s hpre hs
  unfold start_impl
  rw [if_neg (by simp [hr]), hfail]
  exact ⟨rfl, rfl, deregisterAll_eq_nil pre, rfl, rfl⟩

/-- Witness for C4: sockets 1 and 2 register, registration of socket 3
fails; the server ends Stopped with zero notifiers and the error reported. -/
theorem start_registration_failure_witness :
    (start_impl ⟨[1, 2, 3], 0, fun x => decide (x ≤ 2)⟩ 0 (initState 1)).2
        = some Err.registrationFailure
    ∧ (start_impl ⟨[1, 2, 3], 0, fun x => decide (x ≤ 2)⟩ 0 (initState 1)).1.notifiers
        = deregisterAll [1, 2]
    ∧ (start_impl ⟨[1, 2, 3], 0, fun x => decide (x ≤ 2)⟩ 0 (initState 1)).1.notifiers
        = []
    ∧ (start_impl ⟨[1, 2, 3], 0, fun x => decide (x ≤ 2)⟩ 0 (initState 1)).1.running
        = false
    ∧ (start_impl ⟨[1, 2, 3], 0, fun x => decide (x ≤ 2)⟩ 0 (initState 1)).1.timerArmed
        = false :=
  start_registration_failure ⟨[1, 2, 3], 0, fun x => decide (x ≤ 2)⟩ 0
    (initState 1) [1, 2] [] 3 rfl (by decide) (by decide) (by decide)

/-- Claim C5: calling `start` while the server is already Running fails with
the invalid-state condition and leaves the state unchanged (the call is a
total function of the state: it reports the error rather than crashing). -/
theorem start_while_running (cfg : Config) (t : ℚ) (st : SrvState)
    (h : st.running = true) :
    start_impl cfg t st = (st, some Err.invalidState) := by
  simp [start_impl, h]

/-- Witness for C5 at a concrete running state. -/
theorem start_while_running_witness :
    start_impl ⟨[1, 2], 0, fun _ => true⟩ 3 { initState 1 with running := true }
      = ({ initState 1 with running := true }, some Err.invalidState) :=
  start_while_running ⟨[1, 2], 0, fun _ => true⟩ 3
    { initState 1 with running := true } rfl

/-- Claim C6: `stop` on a never-started server is a no-op that leaves the
state exactly at the initial Stopped state (and `stop_impl` returns no error
by its type), and `stop` is idempotent on every state: stopping twice yields
the same state as stopping once. -/
theorem stop_idempotent (d : ℚ) (st : SrvState) :
    stop_impl (initState d) = initState d
      ∧ stop_impl (stop_impl st) = stop_impl st := by
  constructor
  · rfl
  · simp [stop_impl, deregisterAll_eq_nil]

/-- Claim C7: `setPollIntervalSec` with a non-positive value fails with the
invalid-argument condition, leaves the whole state unchanged, and
`pollIntervalSec` afterwards returns the same value as before the call. -/
theorem setPollIntervalSec_rejects_nonpositive (t v : ℚ) (st : SrvState)
    (h : v ≤ 0) :
    setPollIntervalSec t v st = (st, some Err.invalidArgument)
      ∧ pollIntervalSec (setPollIntervalSec t v st).1 = pollIntervalSec st := by
  constructor
  · simp [setPollIntervalSec, h]
  · simp [setPollIntervalSec, h]

/-- Witness for C7 at the concrete non-positive value 0 and at -2. -/
theorem setPollIntervalSec_rejects_nonpositive_witness :
    (setPollIntervalSec 5 0 (initState 1) = (initState 1, some Err.invalidArgument)
      ∧ pollIntervalSec (setPollIntervalSec 5 0 (initState 1)).1
          = pollIntervalSec (initState 1))
    ∧ (setPollIntervalSec 5 (-2) (initState 1)
          = (initState 1, some Err.invalidArgument)
      ∧ pollIntervalSec (setPollIntervalSec 5 (-2) (initState 1)).1
          = pollIntervalSec (initState 1)) :=
  ⟨setPollIntervalSec_rejects_nonpositive 5 0 (initState 1) (by norm_num),
   setPollIntervalSec_rejects_nonpositive 5 (-2) (initState 1) (by norm_num)⟩

/-- Claim C8: for every positive interval `v` and every state (Stopped or
Running alike), `setPollIntervalSec v` succeeds and a subsequent
`pollIntervalSec` returns exactly `v`. -/
theorem setPollIntervalSec_roundtrip (t v : ℚ) (st : SrvState) (h : 0 < v) :
    pollIntervalSec (setPollIntervalSec t v st).1 = v
      ∧ (setPollIntervalSec t v st).2 = none := by
  have hv : ¬ v ≤ 0 := not_le.mpr h
  by_cases hr : st.running = true
  · simp [setPollIntervalSec, pollIntervalSec, hv, hr]
  · simp [setPollIntervalSec, pollIntervalSec, hv, hr]

/-- Witness for C8: round trip at v = 7/2, once on a Stopped state and once
on a Running state. -/
theorem setPollIntervalSec_roundtrip_witness :
    (pollIntervalSec (setPollIntervalSec 1 (7/2) (initState 1)).1 = 7/2
      ∧ (setPollIntervalSec 1 (7/2) (initState 1)).2 = none)
    ∧ (pollIntervalSec
          (setPollIntervalSec 1 (7/2) { initState 1 with running := true }).1 = 7/2
      ∧ (setPollIntervalSec 1 (7/2) { initState 1 with running := true }).2 = none) :=
  ⟨setPollIntervalSec_roundtrip 1 (7/2) (initState 1) (by norm_num),
   setPollIntervalSec_roundtrip 1 (7/2) { initState 1 with running := true }
     (by norm_num)⟩

/-- Claim C9: changing the interval to `v` at time `t` while the server is
Running re-arms the fallback timer so the next tick is scheduled at `t + v`
(not one old interval after the previous tick), and no readiness events are
lost in the re-arm: the pending-message queue, the armed flag and both
handler logs are untouched. -/
theorem setPollIntervalSec_rearms (t v : ℚ) (st : SrvState)
    (hrun : st.running = true) (hv : 0 < v) :
    (setPollIntervalSec t v st).1.nextTick = t + v
      ∧ (setPollIntervalSec t v st).1.queue = st.queue
      ∧ (setPollIntervalSec t v st).1.timerArmed = st.timerArmed
      ∧ (setPollIntervalSec t v st).1.handlerLog = st.handlerLog
      ∧ (setPollIntervalSec t v st).1.bridgeLog = st.bridgeLog := by
  have hvle : ¬ v ≤ 0 := not_le.mpr hv
  simp [setPollIntervalSec, hvle, hrun]

/-- Witness for C9: a running server with old interval 3 and a tick pending
at time 9; changing the interval to 2 at time 4 schedules the next tick at
time 6 and preserves the one pending message. -/
theorem setPollIntervalSec_rearms_witness :
    (setPollIntervalSec 4 2
        { running := true, notifiers := [1], timerArmed := true,
          intervalSec := 3, nextTick := 9, queue := [7/2], handlerLog := [],
          bridgeLog := [] }).1.nextTick = 4 + 2
    ∧ (setPollIntervalSec 4 2
        { running := true, notifiers := [1], timerArmed := true,
          intervalSec := 3, nextTick := 9, queue := [7/2], handlerLog := [],
          bridgeLog := [] }).1.queue = [7/2]
    ∧ (setPollIntervalSec 4 2
        { running := true, notifiers := [1], timerArmed := true,
          intervalSec := 3, nextTick := 9, queue := [7/2], handlerLog := [],
          bridgeLog := [] }).1.timerArmed = true
    ∧ (setPollIntervalSec 4 2
        { running := true, notifiers := [1], timerArmed := true,
          intervalSec := 3, nextTick := 9, queue := [7/2], handlerLog := [],
          bridgeLog := [] }).1.handlerLog = []
    ∧ (setPollIntervalSec 4 2
        { running := true, notifiers := [1], timerArmed := true,
          intervalSec := 3, nextTick := 9, queue := [7/2], handlerLog := [],
          bridgeLog := [] }).1.bridgeLog = [] :=
  setPollIntervalSec_rearms 4 2
    { running := true, notifiers := [1], timerArmed := true,
      intervalSec := 3, nextTick := 9, queue := [7/2], handlerLog := [],
      bridgeLog := [] } rfl (by norm_num)

theorem run_append (cfg : Config) (l1 l2 : List Ev) (st : SrvState) :
    run cfg st (l1 ++ l2) = run cfg (run cfg st l1) l2 := by
  induction l1 generalizing st with
  | nil => simp [run]
  | cons e rest ih => simp [run, ih]

theorem run_arrives (cfg : Config) (as : List ℚ) (st : SrvState) :
    run cfg st (as.map Ev.arrive) = { st with queue := st.queue ++ as } := by
  induction as generalizing st with
  | nil => simp [run]
  | cons a rest ih =>
      simp [run, step, arrive, ih, List.append_assoc]

/-- Claim C2: `N ≥ 1` messages arrive on the problem socket between two
consecutive ticks (arrival times `as`, next tick scheduled at `t1`).  At the
tick, the poll fallback performs its one pending-data check and invokes the
protocol engine's handler exactly once (the handler log grows by the single
entry `t1`), after which no message is pending (no loss); each message that
arrived after `t1` minus one interval is processed with latency below one
poll interval; and in general a single tick grows the handler log by at most
one entry (no tight-loop draining). -/
theorem poll_burst (cfg : Config) (st : SrvState) (t1 a : ℚ) (as : List ℚ)
    (harm : st.timerArmed = true) (hnt : st.nextTick = t1) (hq : st.queue = [])
    (hne : as ≠ []) (ha : a ∈ as) (hwin : t1 - st.intervalSec < a)
    (u : ℚ) (st2 : SrvState) :
    (run cfg st (as.map Ev.arrive ++ [Ev.tick t1])).queue = []
    ∧ (run cfg st (as.map Ev.arrive ++ [Ev.tick t1])).handlerLog
        = t1 :: st.handlerLog
    ∧ t1 - a < st.intervalSec
    ∧ (tick u st2).handlerLog.length ≤ st2.handlerLog.length + 1 := by
  have hrun : run cfg st (as.map Ev.arrive ++ [Ev.tick t1])
      = tick t1 { st with queue := as } := by
    rw [run_append, run_arrives]
    simp [run, step, hq]
  have htick : tick t1 { st with queue := as }
      = { st with
            queue := []
            handlerLog := t1 :: st.handlerLog
            nextTick := t1 + st.intervalSec } := by
    unfold tick
    rw [if_pos ⟨harm, hnt⟩, if_neg hne]
  refine ⟨?_, ?_, by linarith, ?_⟩
  · rw [hrun, htick]
  · rw [hrun, htick]
  · unfold tick
    by_cases hc : st2.timerArmed = true ∧ st2.nextTick = u
    · by_cases hq2 : st2.queue = [] <;> simp [hc, hq2]
    · simp [hc]

/-- Witness for C2: two messages arriving at times 9 and 19/2, tick
scheduled at 10 with interval 2; both are processed at the tick, the
handler fires once, and the latency of the message from time 9 is below
the interval. -/
theorem poll_burst_witness :
    (run ⟨[], 0, fun _ => true⟩ demoArmed
        ([(9 : ℚ), 19/2].map Ev.arrive ++ [Ev.tick 10])).queue = []
    ∧ (run ⟨[], 0, fun _ => true⟩ demoArmed
        ([(9 : ℚ), 19/2].map Ev.arrive ++ [Ev.tick 10])).handlerLog
        = 10 :: demoArmed.handlerLog
    ∧ (10 : ℚ) - 9 < demoArmed.intervalSec
    ∧ (tick 0 (initState 1)).handlerLog.length
        ≤ (initState 1).handlerLog.length + 1 :=
  poll_burst ⟨[], 0, fun _ => true⟩ demoArmed
    10 9 [(9 : ℚ), 19/2] rfl rfl rfl (by decide) (by norm_num)
    (by norm_num [demoArmed]) 0 (initState 1)

/-- On a stopped, disarmed, notifier-free server, any start-free event
sequence leaves both handler logs untouched and keeps the server stopped,
disarmed and notifier-free. -/
theorem run_stopped_quiescent (cfg : Config) (evs : List Ev) (st : SrvState)
    (h1 : st.running = false) (h2 : st.timerArmed = false)
    (h3 : st.notifiers = [])
    (hns : evs.all (fun e => !isStart e) = true) :
    (run cfg st evs).handlerLog = st.handlerLog
      ∧ (run cfg st evs).bridgeLog = st.bridgeLog := by
  induction evs generalizing st with
  | nil => exact ⟨rfl, rfl⟩
  | cons e rest ih =>
      rw [List.all_cons, Bool.and_eq_true] at hns
      have hstep : step cfg st e = st
          ∨ ((step cfg st e).running = false
              ∧ (step cfg st e).timerArmed = false
              ∧ (step cfg st e).notifiers = []
              ∧ (step cfg st e).handlerLog = st.handlerLog
              ∧ (step cfg st e).bridgeLog = st.bridgeLog) := by
        cases e with
        | start t => simp [isStart] at hns
        | stop t =>
            right
            simp [step, stop_impl, h3, deregisterAll_eq_nil]
        | setInterval t v =>
            right
            unfold step setPollIntervalSec
            by_cases hv : v ≤ 0
            · simp [hv, h1, h2, h3]
            · simp [hv, h1, h2, h3]
        | arrive t => right; simp [step, arrive, h1, h2, h3]
        | tick t =>
            left
            show tick t st = st
            unfold tick
            rw [if_neg (by simp [h2])]
        | notify s t =>
            left
            show notify s t st = st
            unfold notify
            rw [if_neg (by simp [h3])]
      rcases hstep with hid | ⟨p1, p2, p3, p4, p5⟩
      · rw [run, hid]
        exact ih st h1 h2 h3 hns.2
      · have := ih (step cfg st e) p1 p2 p3 hns.2
        rw [run]
        exact ⟨this.1.trans p4, this.2.trans p5⟩

/-- Claim C3: `stop` synchronously disarms the timer and removes every
notifier before returning, and afterwards no start-free event sequence —
including the delivery attempt of a tick that was still scheduled when
`stop` was called, arrivals, and event-loop readiness notifications — ever
invokes the protocol engine's handler: both handler logs stay exactly as
they were at the moment `stop` returned. -/
theorem stop_cancels_event_sources (cfg : Config) (st : SrvState)
    (evs : List Ev)
    (hns : evs.all (fun e => !isStart e) = true) :
    (stop_impl st).running = false
    ∧ (stop_impl st).timerArmed = false
    ∧ (stop_impl st).notifiers = []
    ∧ (run cfg (stop_impl st) evs).handlerLog = st.handlerLog
    ∧ (run cfg (stop_impl st) evs).bridgeLog = st.bridgeLog := by
  have hq := run_stopped_quiescent cfg evs (stop_impl st) rfl rfl
    (deregisterAll_eq_nil st.notifiers) hns
  exact ⟨rfl, rfl, deregisterAll_eq_nil st.notifiers, hq.1, hq.2⟩

/-- Witness for C3: a running server with a tick scheduled at time 10 is
stopped at time 4; the already-scheduled tick, later arrivals, readiness
notifications and an interval change all leave the handler logs empty. -/
theorem stop_cancels_event_sources_witness :
    (stop_impl demoRunning).running = false
    ∧ (stop_impl demoRunning).timerArmed = false
    ∧ (stop_impl demoRunning).notifiers = []
    ∧ (run ⟨[1, 2, 3], 3, fun _ => true⟩ (stop_impl demoRunning)
        [Ev.tick 10, Ev.arrive 11, Ev.notify 1 12, Ev.setInterval 13 2,
          Ev.stop 14, Ev.tick 15]).handlerLog = demoRunning.handlerLog
    ∧ (run ⟨[1, 2, 3], 3, fun _ => true⟩ (stop_impl demoRunning)
        [Ev.tick 10, Ev.arrive 11, Ev.notify 1 12, Ev.setInterval 13 2,
          Ev.stop 14, Ev.tick 15]).bridgeLog = demoRunning.bridgeLog :=
  stop_cancels_event_sources ⟨[1, 2, 3], 3, fun _ => true⟩ demoRunning
    [Ev.tick 10, Ev.arrive 11, Ev.notify 1 12, Ev.setInterval 13 2,
      Ev.stop 14, Ev.tick 15] rfl

/-- Counterexample to claim C10: in the specified behaviour the interval is
a plain seconds value, so the set/get round trip is exact even at the
sub-millisecond value 1/2000 s, which is not a whole multiple of one
millisecond — contradicting the claim that the round trip is exact only for
whole-millisecond multiples. -/
theorem interval_subms_roundtrip_exact :
    pollIntervalSec (setPollIntervalSec 0 (1/2000) (initState 1)).1 = 1/2000
    ∧ ¬ ∃ n : ℤ, (1/2000 : ℚ) = n * (1/1000) := by
  constructor
  · norm_num [setPollIntervalSec, pollIntervalSec, initState]
  · rintro ⟨n, hn⟩
    have h2 : ((2 * n : ℤ) : ℚ) = 1 := by push_cast; linarith
    have h3 : (2 * n : ℤ) = 1 := by exact_mod_cast h2
    omega

/-- Amended claim C10: the specified behaviour stores the poll interval as
an exact seconds value, with no millisecond quantization: for every positive
value `v` — whole multiple of a millisecond or not — `setPollIntervalSec v`
followed by `pollIntervalSec` returns exactly `v`, and the stored interval
equals `v`. -/
theorem interval_not_quantized (t v : ℚ) (st : SrvState) (hv : 0 < v) :
    pollIntervalSec (setPollIntervalSec t v st).1 = v
      ∧ (setPollIntervalSec t v st).1.intervalSec = v := by
  have hvle : ¬ v ≤ 0 := not_le.mpr hv
  by_cases hr : st.running = true
  · simp [setPollIntervalSec, pollIntervalSec, hvle, hr]
  · simp [setPollIntervalSec, pollIntervalSec, hvle, hr]

/-- Witness for the amended C10 at the sub-millisecond value 1/2000 s. -/
theorem interval_not_quantized_witness :
    pollIntervalSec (setPollIntervalSec 3 (1/2000) (initState 1)).1 = 1/2000
      ∧ (setPollIntervalSec 3 (1/2000) (initState 1)).1.intervalSec = 1/2000 :=
  interval_not_quantized 3 (1/2000) (initState 1) (by norm_num)

end SlicerServer
